import Mathlib

set_option maxHeartbeats 1000000

/-! Shallow embedding of the weekly schedule generator of the
Turnos-CommIASDCentral repository: the `generateSchedule` function of
`src/src/App.tsx`, together with the type and constant declarations of
the types module (`src/unnamed/part_000`). -/

/-- Service types, from the types module. -/
inductive ServiceType
  | Domingo
  | Miercoles
  | SabadoManana
  | SabadoTarde
deriving DecidableEq, Repr, Fintype

/-- Role functions, from the types module. -/
inductive RoleFunction
  | Consola
  | Transmision
  | Proyeccion
  | MediosDigitales
  | Coordinacion
deriving DecidableEq, Repr, Fintype

/-- The string literal of each `ServiceType` union member. -/
def serviceName : ServiceType → String
  | .Domingo => "Domingo"
  | .Miercoles => "Miércoles"
  | .SabadoManana => "Sábado Mañana"
  | .SabadoTarde => "Sábado Tarde"

/-- The string literal of each `RoleFunction` union member. -/
def roleName : RoleFunction → String
  | .Consola => "Consola"
  | .Transmision => "Transmisión"
  | .Proyeccion => "Proyección"
  | .MediosDigitales => "Medios Digitales"
  | .Coordinacion => "Coordinación"

/-- `Volunteer` interface from the types module. -/
structure Volunteer where
  id : Nat
  name : String
  functions : List RoleFunction
  availability : List ServiceType
  restrictions : List String
  total_score : Int
deriving DecidableEq, Repr

/-- `ScheduleAssignment` interface from the types module (the optional
database `id` field is never set by `generateSchedule` and is omitted). -/
structure ScheduleAssignment where
  week_start : String
  service_type : ServiceType
  function_name : RoleFunction
  volunteer_id : Option Nat
deriving DecidableEq, Repr

/-- `ALL_FUNCTIONS` from the types module, in source order. -/
def ALL_FUNCTIONS : List RoleFunction :=
  [.Consola, .Transmision, .Proyeccion, .MediosDigitales, .Coordinacion]

/-- `ALL_SERVICES` from the types module, in source order. -/
def ALL_SERVICES : List ServiceType :=
  [.Domingo, .Miercoles, .SabadoManana, .SabadoTarde]

/-- `service === "Domingo" ? ["Transmisión"] : ALL_FUNCTIONS` (App.tsx
line 179). -/
def neededFunctions (service : ServiceType) : List RoleFunction :=
  if service = ServiceType.Domingo then [RoleFunction.Transmision] else ALL_FUNCTIONS

/-- The (service, role) slots in the order the nested loops of
`generateSchedule` visit them (App.tsx lines 178-181). -/
def neededSlots : List (ServiceType × RoleFunction) :=
  ALL_SERVICES.flatMap (fun s => (neededFunctions s).map (fun f => (s, f)))

/-- JS `Set.add` on a set modelled as a duplicate-free list. -/
def setAdd (r : RoleFunction) (l : List RoleFunction) : List RoleFunction :=
  if r ∈ l then l else r :: l

/-- The weekly-limit check of the candidate filters (App.tsx lines
193-199 and 208-212): a volunteer with roles already assigned this week
passes only if the new role is "Coordinación" or one of the already
assigned roles is "Coordinación". -/
def weeklyLimitOk (used : Nat → List RoleFunction) (role : RoleFunction)
    (v : Volunteer) : Bool :=
  let rolesUsed := used v.id
  if rolesUsed.length > 0 then
    if role = RoleFunction.Coordinacion ∨ RoleFunction.Coordinacion ∈ rolesUsed then
      true
    else false
  else true

/-- The strict candidate filter of `generateSchedule` (App.tsx lines
185-202): availability, preference, consecutive-week check, weekly
limit. -/
def strictFilter (lastWeekVols : List (Option Nat)) (used : Nat → List RoleFunction)
    (service : ServiceType) (role : RoleFunction) (v : Volunteer) : Bool :=
  if service ∈ v.availability then
    if role ∈ v.functions then
      if (some v.id) ∈ lastWeekVols then false
      else weeklyLimitOk used role v
    else false
  else false

/-- The relaxed candidate filter of `generateSchedule` (App.tsx lines
206-214): availability and weekly limit only. -/
def relaxedFilter (used : Nat → List RoleFunction)
    (service : ServiceType) (role : RoleFunction) (v : Volunteer) : Bool :=
  if service ∈ v.availability then weeklyLimitOk used role v else false

/-- Warning pushed when the relaxed pass is used (App.tsx line 216). -/
def relaxedWarning (role : RoleFunction) (service : ServiceType) : String :=
  "Aviso: Se asignó a alguien no preferente para " ++ roleName role ++ " en " ++ serviceName service

/-- Warning pushed when a slot stays vacant (App.tsx line 244). -/
def vacancyWarning (role : RoleFunction) (service : ServiceType) : String :=
  "Error: No hay voluntarios disponibles para " ++ roleName role ++ " en " ++ serviceName service

/-- JS array indexing `l[i]`: `undefined` (here `none`) when the index
is negative or past the end. -/
def jsGet {α : Type} (l : List α) (i : Int) : Option α :=
  if i < 0 then none else l.get? i.toNat

/-- `Math.floor(q * n)`, used to model
`Math.floor(Math.random() * candidates.length)` (App.tsx line 225),
computed on the rational's numerator and denominator so that it
evaluates by kernel reduction; `Int.fdiv` is floor division, and
`jsFloorMul_eq_floor` below proves this equal to `⌊q * n⌋`. -/
def jsFloorMul (q : ℚ) (n : Nat) : Int := (q.num * n).fdiv q.den

/-- The mutable state of one `generateSchedule` run: the `assignments`
array, the `warnings` list, the `usedThisWeek` map (volunteer id to set
of roles, with the JS `map.get(id) || new Set()` default modelled as a
total function defaulting to `[]`), and a counter of `Math.random`
calls made so far. -/
structure SchedState where
  assignments : List ScheduleAssignment
  warnings : List String
  used : Nat → List RoleFunction
  rndCount : Nat

/-- The `candidates.length > 0` branch pair of the slot loop (App.tsx
lines 220-245): select `candidates[Math.floor(random * length)]`, push
the assignment and update `usedThisWeek`; otherwise push a null
assignment and a vacancy warning.  Accessing `.id` of an out-of-range
(undefined) element is a JS runtime error, modelled as `none`. -/
def assignFromCandidates (week : String) (service : ServiceType) (role : RoleFunction)
    (randomSeq : Nat → ℚ) (st : SchedState) (candidates : List Volunteer)
    (ws : List String) : Option SchedState :=
  if candidates.length > 0 then
    match jsGet candidates (jsFloorMul (randomSeq st.rndCount) candidates.length) with
    | none => none
    | some selected =>
      some { assignments := st.assignments ++
               [⟨week, service, role, some selected.id⟩]
             warnings := ws
             used := fun i =>
               if i = selected.id then setAdd role (st.used selected.id) else st.used i
             rndCount := st.rndCount + 1 }
  else
    some { assignments := st.assignments ++ [⟨week, service, role, none⟩]
           warnings := ws ++ [vacancyWarning role service]
           used := st.used
           rndCount := st.rndCount }

/-- The body of the slot loop of `generateSchedule` (App.tsx lines
181-246): strict filter, relaxed fallback with its warning, then
selection. -/
def processSlot (roster : List Volunteer) (lastWeekVols : List (Option Nat))
    (week : String) (randomSeq : Nat → ℚ) (st : SchedState)
    (slot : ServiceType × RoleFunction) : Option SchedState :=
  let service := slot.1
  let role := slot.2
  let strictCands := roster.filter (strictFilter lastWeekVols st.used service role)
  if strictCands.length = 0 then
    let relaxedCands := roster.filter (relaxedFilter st.used service role)
    let ws :=
      if relaxedCands.length > 0 then st.warnings ++ [relaxedWarning role service]
      else st.warnings
    assignFromCandidates week service role randomSeq st relaxedCands ws
  else
    assignFromCandidates week service role randomSeq st strictCands st.warnings

/-- The initial loop state of `generateSchedule` (App.tsx lines
170-171). -/
def initState : SchedState := ⟨[], [], fun _ => [], 0⟩

/-- `generateSchedule` (App.tsx lines 167-256), parametrised by the
sequence of `Math.random()` results.  `lastWeekVols` is the JS
`Set(lastWeekData.map(s => s.volunteer_id))` (App.tsx line 176), which
may contain `null`.  Returns the produced assignment array and warning
list; `none` models a JS runtime error (only possible when a
`Math.random()` result is outside `[0, 1)`). -/
def generateSchedule (roster : List Volunteer) (prevWeek : List ScheduleAssignment)
    (week : String) (randomSeq : Nat → ℚ) :
    Option (List ScheduleAssignment × List String) :=
  let lastWeekVols := prevWeek.map ScheduleAssignment.volunteer_id
  (neededSlots.foldlM (processSlot roster lastWeekVols week randomSeq) initState).map
    (fun st => (st.assignments, st.warnings))

/-- A `Math.random` sequence respecting the JS contract: every value in
`[0, 1)`. -/
def validRnd (randomSeq : Nat → ℚ) : Prop :=
  ∀ k, 0 ≤ randomSeq k ∧ randomSeq k < 1

/-- Constant-zero random sequence, used for concrete runs. -/
def rnd0 : Nat → ℚ := fun _ => 0

/-! ### Basic facts about the embedded definitions -/

theorem weeklyLimitOk_iff (used : Nat → List RoleFunction) (role : RoleFunction)
    (v : Volunteer) :
    weeklyLimitOk used role v = true ↔
      (used v.id = [] ∨ role = RoleFunction.Coordinacion ∨
        RoleFunction.Coordinacion ∈ used v.id) := by
  unfold weeklyLimitOk
  rcases h : used v.id with _ | ⟨r, rs⟩ <;> simp [h]

theorem strictFilter_iff (lastWeekVols : List (Option Nat))
    (used : Nat → List RoleFunction) (service : ServiceType) (role : RoleFunction)
    (v : Volunteer) :
    strictFilter lastWeekVols used service role v = true ↔
      (service ∈ v.availability ∧ role ∈ v.functions ∧
        (some v.id) ∉ lastWeekVols ∧
        (used v.id = [] ∨ role = RoleFunction.Coordinacion ∨
          RoleFunction.Coordinacion ∈ used v.id)) := by
  unfold strictFilter
  by_cases ha : service ∈ v.availability <;>
    by_cases hf : role ∈ v.functions <;>
      by_cases hl : (some v.id) ∈ lastWeekVols <;>
        simp [ha, hf, hl, weeklyLimitOk_iff]

theorem relaxedFilter_iff (used : Nat → List RoleFunction) (service : ServiceType)
    (role : RoleFunction) (v : Volunteer) :
    relaxedFilter used service role v = true ↔
      (service ∈ v.availability ∧
        (used v.id = [] ∨ role = RoleFunction.Coordinacion ∨
          RoleFunction.Coordinacion ∈ used v.id)) := by
  unfold relaxedFilter
  by_cases ha : service ∈ v.availability <;> simp [ha, weeklyLimitOk_iff]

theorem jsGet_mem {α : Type} {l : List α} {i : Int} {x : α}
    (h : jsGet l i = some x) : x ∈ l := by
  unfold jsGet at h
  split at h
  · exact absurd h (by simp)
  · exact List.get?_mem h

theorem jsGet_isSome {α : Type} {l : List α} {i : Int}
    (h0 : 0 ≤ i) (hlt : i < l.length) : ∃ x, jsGet l i = some x := by
  unfold jsGet
  rw [if_neg (not_lt.mpr h0)]
  have hlt' : i.toNat < l.length := by
    omega
  exact ⟨l.get ⟨i.toNat, hlt'⟩, List.get?_eq_get hlt'⟩

theorem jsFloorMul_eq_floor (q : ℚ) (n : Nat) :
    jsFloorMul q n = ⌊q * (n : ℚ)⌋ := by
  unfold jsFloorMul
  have hden : (0 : ℤ) ≤ (q.den : ℤ) := Int.ofNat_nonneg q.den
  rw [Int.fdiv_eq_ediv _ hden]
  have hq : q * (n : ℚ) = ((q.num * (n : ℤ) : ℤ) : ℚ) / ((q.den : ℕ) : ℚ) := by
    conv_lhs => rw [← Rat.num_div_den q]
    push_cast
    ring
  rw [hq, Rat.floor_intCast_div_natCast]

theorem jsFloorMul_bounds (q : ℚ) (n : Nat) (h0 : 0 ≤ q) (h1 : q < 1) (hn : 0 < n) :
    0 ≤ jsFloorMul q n ∧ jsFloorMul q n < n := by
  rw [jsFloorMul_eq_floor]
  constructor
  · exact Int.floor_nonneg.mpr (mul_nonneg h0 (by positivity))
  · rw [Int.floor_lt]
    push_cast
    calc q * (n : ℚ) < 1 * (n : ℚ) := by
          exact mul_lt_mul_of_pos_right h1 (by exact_mod_cast hn)
      _ = (n : ℚ) := one_mul _

/-! ### Generic induction principles for the slot fold -/

theorem foldlM_invariant {σ α : Type} (P : σ → Prop) (f : σ → α → Option σ)
    (l : List α) (hstep : ∀ t a t', a ∈ l → P t → f t a = some t' → P t') :
    ∀ (s s' : σ), List.foldlM f s l = some s' → P s → P s' := by
  induction l with
  | nil =>
    intro s s' h hP
    simp only [List.foldlM_nil] at h
    cases h
    exact hP
  | cons a l ih =>
    intro s s' h hP
    rw [List.foldlM_cons] at h
    cases hfa : f s a with
    | none => rw [hfa] at h; simp at h
    | some s1 =>
      rw [hfa] at h
      simp only [Option.bind_eq_bind, Option.some_bind] at h
      exact ih (fun t b t' hb => hstep t b t' (List.mem_cons_of_mem _ hb)) s1 s' h
        (hstep s a s1 (List.mem_cons_self _ _) hP hfa)

theorem foldlM_total {σ α : Type} (f : σ → α → Option σ) (l : List α)
    (htot : ∀ t a, a ∈ l → ∃ t', f t a = some t') :
    ∀ s, ∃ s', List.foldlM f s l = some s' := by
  induction l with
  | nil => intro s; exact ⟨s, by simp [List.foldlM_nil]⟩
  | cons a l ih =>
    intro s
    obtain ⟨s1, hs1⟩ := htot s a (List.mem_cons_self _ _)
    obtain ⟨s', hs'⟩ := ih (fun t b hb => htot t b (List.mem_cons_of_mem _ hb)) s1
    exact ⟨s', by rw [List.foldlM_cons, hs1]; simpa using hs'⟩

/-! ### One-step characterisation of the slot loop body -/

/-- Everything `processSlot` can do in one successful step: either some
candidate pass was non-empty and its selected member was assigned (with
the relaxed warning exactly when the strict pass was empty), or both
passes were empty and a null assignment plus a vacancy warning was
recorded. -/
theorem processSlot_spec (roster : List Volunteer) (lastWeekVols : List (Option Nat))
    (week : String) (randomSeq : Nat → ℚ) (st : SchedState)
    (service : ServiceType) (role : RoleFunction) (st' : SchedState)
    (h : processSlot roster lastWeekVols week randomSeq st (service, role) = some st') :
    (∃ selected cands,
        selected ∈ cands ∧
        ((cands = roster.filter (strictFilter lastWeekVols st.used service role) ∧
            cands ≠ [] ∧ st'.warnings = st.warnings) ∨
          (roster.filter (strictFilter lastWeekVols st.used service role) = [] ∧
            cands = roster.filter (relaxedFilter st.used service role) ∧ cands ≠ [] ∧
            st'.warnings = st.warnings ++ [relaxedWarning role service])) ∧
        st'.assignments = st.assignments ++ [⟨week, service, role, some selected.id⟩] ∧
        st'.used = fun i =>
          if i = selected.id then setAdd role (st.used selected.id) else st.used i) ∨
    (roster.filter (strictFilter lastWeekVols st.used service role) = [] ∧
      roster.filter (relaxedFilter st.used service role) = [] ∧
      st'.assignments = st.assignments ++ [⟨week, service, role, none⟩] ∧
      st'.warnings = st.warnings ++ [vacancyWarning role service] ∧
      st'.used = st.used) := by
  unfold processSlot at h
  simp only at h
  by_cases hstrict : (roster.filter (strictFilter lastWeekVols st.used service role)).length = 0
  · rw [if_pos hstrict] at h
    have hstrict' : roster.filter (strictFilter lastWeekVols st.used service role) = [] :=
      List.length_eq_zero.mp hstrict
    by_cases hrel : (roster.filter (relaxedFilter st.used service role)).length > 0
    · rw [if_pos hrel] at h
      unfold assignFromCandidates at h
      rw [if_pos hrel] at h
      cases hget : jsGet (roster.filter (relaxedFilter st.used service role))
          (jsFloorMul (randomSeq st.rndCount)
            (roster.filter (relaxedFilter st.used service role)).length) with
      | none => rw [hget] at h; exact absurd h (by simp)
      | some selected =>
        rw [hget] at h
        cases h
        refine Or.inl ⟨selected, roster.filter (relaxedFilter st.used service role),
          jsGet_mem hget, Or.inr ⟨hstrict', rfl, ?_, rfl⟩, rfl, rfl⟩
        exact List.length_pos.mp hrel
    · rw [if_neg hrel] at h
      unfold assignFromCandidates at h
      rw [if_neg hrel] at h
      cases h
      exact Or.inr ⟨hstrict', List.length_eq_zero.mp (by omega), rfl, rfl, rfl⟩
  · rw [if_neg hstrict] at h
    unfold assignFromCandidates at h
    have hpos : (roster.filter (strictFilter lastWeekVols st.used service role)).length > 0 := by
      omega
    rw [if_pos hpos] at h
    cases hget : jsGet (roster.filter (strictFilter lastWeekVols st.used service role))
        (jsFloorMul (randomSeq st.rndCount)
          (roster.filter (strictFilter lastWeekVols st.used service role)).length) with
    | none => rw [hget] at h; exact absurd h (by simp)
    | some selected =>
      rw [hget] at h
      cases h
      refine Or.inl ⟨selected, roster.filter (strictFilter lastWeekVols st.used service role),
        jsGet_mem hget, Or.inl ⟨rfl, ?_, rfl⟩, rfl, rfl⟩
      exact List.length_pos.mp hpos

/-- Each successful `processSlot` step appends exactly one assignment,
for exactly its slot. -/
theorem processSlot_appends (roster : List Volunteer) (lastWeekVols : List (Option Nat))
    (week : String) (randomSeq : Nat → ℚ) (st : SchedState)
    (slot : ServiceType × RoleFunction) (st' : SchedState)
    (h : processSlot roster lastWeekVols week randomSeq st slot = some st') :
    ∃ vid, st'.assignments = st.assignments ++ [⟨week, slot.1, slot.2, vid⟩] := by
  rcases processSlot_spec roster lastWeekVols week randomSeq st slot.1 slot.2 st' h with
    ⟨selected, cands, _, _, hassign, _⟩ | ⟨_, _, hassign, _, _⟩
  · exact ⟨some selected.id, hassign⟩
  · exact ⟨none, hassign⟩

/-- Over any slot list, the fold of `processSlot` appends one
assignment per slot, in slot order. -/
theorem foldSlots_assignments (roster : List Volunteer) (lastWeekVols : List (Option Nat))
    (week : String) (randomSeq : Nat → ℚ) :
    ∀ (slots : List (ServiceType × RoleFunction)) (st st' : SchedState),
      List.foldlM (processSlot roster lastWeekVols week randomSeq) st slots = some st' →
      st'.assignments.map (fun a => (a.service_type, a.function_name)) =
        st.assignments.map (fun a => (a.service_type, a.function_name)) ++ slots := by
  intro slots
  induction slots with
  | nil =>
    intro st st' h
    simp only [List.foldlM_nil] at h
    cases h
    simp
  | cons a l ih =>
    intro st st' h
    rw [List.foldlM_cons] at h
    cases hfa : processSlot roster lastWeekVols week randomSeq st a with
    | none => rw [hfa] at h; simp at h
    | some s1 =>
      rw [hfa] at h
      simp only [Option.bind_eq_bind, Option.some_bind] at h
      obtain ⟨vid, hassign⟩ :=
        processSlot_appends roster lastWeekVols week randomSeq st a s1 hfa
      rw [ih s1 st' h, hassign]
      simp

/-- Unpacking a successful `generateSchedule` run into its final fold
state. -/
theorem generateSchedule_eq (roster : List Volunteer) (prevWeek : List ScheduleAssignment)
    (week : String) (randomSeq : Nat → ℚ) (as : List ScheduleAssignment)
    (ws : List String)
    (h : generateSchedule roster prevWeek week randomSeq = some (as, ws)) :
    ∃ stf, List.foldlM
        (processSlot roster (prevWeek.map ScheduleAssignment.volunteer_id) week randomSeq)
        initState neededSlots = some stf ∧
      stf.assignments = as ∧ stf.warnings = ws := by
  unfold generateSchedule at h
  simp only at h
  rcases Option.map_eq_some'.mp h with ⟨stf, hfold, heq⟩
  refine ⟨stf, hfold, ?_, ?_⟩
  · exact congrArg Prod.fst heq
  · exact congrArg Prod.snd heq

/-- The slot structure of the output: one assignment per needed slot,
in the canonical order. -/
theorem generateSchedule_shape (roster : List Volunteer) (prevWeek : List ScheduleAssignment)
    (week : String) (randomSeq : Nat → ℚ) (as : List ScheduleAssignment)
    (ws : List String)
    (h : generateSchedule roster prevWeek week randomSeq = some (as, ws)) :
    as.map (fun a => (a.service_type, a.function_name)) = neededSlots := by
  obtain ⟨stf, hfold, has, _⟩ := generateSchedule_eq roster prevWeek week randomSeq as ws h
  have := foldSlots_assignments roster (prevWeek.map ScheduleAssignment.volunteer_id)
    week randomSeq neededSlots initState stf hfold
  rw [has] at this
  simpa [initState] using this

/-- Every non-null assignment names a roster volunteer whose
availability contains the assignment's service. -/
theorem generateSchedule_availability (roster : List Volunteer)
    (prevWeek : List ScheduleAssignment) (week : String) (randomSeq : Nat → ℚ)
    (as : List ScheduleAssignment) (ws : List String)
    (h : generateSchedule roster prevWeek week randomSeq = some (as, ws)) :
    ∀ a ∈ as, ∀ vid, a.volunteer_id = some vid →
      ∃ v, v ∈ roster ∧ v.id = vid ∧ a.service_type ∈ v.availability := by
  obtain ⟨stf, hfold, has, _⟩ := generateSchedule_eq roster prevWeek week randomSeq as ws h
  have main : ∀ a ∈ stf.assignments, ∀ vid, a.volunteer_id = some vid →
      ∃ v, v ∈ roster ∧ v.id = vid ∧ a.service_type ∈ v.availability := by
    refine foldlM_invariant
      (fun st => ∀ a ∈ st.assignments, ∀ vid, a.volunteer_id = some vid →
        ∃ v, v ∈ roster ∧ v.id = vid ∧ a.service_type ∈ v.availability)
      _ neededSlots ?_ initState stf hfold (by simp [initState])
    intro t slot t' _ hP hstep
    obtain ⟨service, role⟩ := slot
    rcases processSlot_spec roster (prevWeek.map ScheduleAssignment.volunteer_id)
        week randomSeq t service role t' hstep with
      ⟨selected, cands, hmem, hcase, hassign, _⟩ | ⟨_, _, hassign, _, _⟩
    · rw [hassign]
      intro a ha vid hvid
      rcases List.mem_append.mp ha with hold | hnew
      · exact hP a hold vid hvid
      · have ha' : a = ⟨week, service, role, some selected.id⟩ := by
          simpa using hnew
        subst ha'
        have hvid' : vid = selected.id := by
          simpa using hvid.symm
        subst hvid'
        have hsel : selected ∈ roster ∧ service ∈ selected.availability := by
          rcases hcase with ⟨hc, _, _⟩ | ⟨_, hc, _, _⟩
          · rw [hc] at hmem
            obtain ⟨h1, h2⟩ := List.mem_filter.mp hmem
            exact ⟨h1, ((strictFilter_iff _ _ _ _ _).mp h2).1⟩
          · rw [hc] at hmem
            obtain ⟨h1, h2⟩ := List.mem_filter.mp hmem
            exact ⟨h1, ((relaxedFilter_iff _ _ _ _).mp h2).1⟩
        exact ⟨selected, hsel.1, rfl, hsel.2⟩
    · rw [hassign]
      intro a ha vid hvid
      rcases List.mem_append.mp ha with hold | hnew
      · exact hP a hold vid hvid
      · have ha' : a = ⟨week, service, role, none⟩ := by
          simpa using hnew
        subst ha'
        simp at hvid
  rw [has] at main
  exact main

/-! ### Load-limit invariant -/

theorem setAdd_ne_nil (r : RoleFunction) (l : List RoleFunction) : setAdd r l ≠ [] := by
  unfold setAdd
  split
  · intro hl
    subst hl
    simp_all
  · simp

theorem mem_setAdd {x r : RoleFunction} {l : List RoleFunction} :
    x ∈ setAdd r l ↔ x = r ∨ x ∈ l := by
  unfold setAdd
  split
  · constructor
    · exact fun h => Or.inr h
    · rintro (rfl | h)
      · assumption
      · exact h
  · simp [List.mem_cons]

/-- Number of assignments of a given volunteer id in a list. -/
def assignCount (as : List ScheduleAssignment) (vid : Nat) : Nat :=
  as.countP (fun a => decide (a.volunteer_id = some vid))

theorem assignCount_append (l₁ l₂ : List ScheduleAssignment) (vid : Nat) :
    assignCount (l₁ ++ l₂) vid = assignCount l₁ vid + assignCount l₂ vid :=
  List.countP_append _ _ _

theorem assignCount_single (a : ScheduleAssignment) (vid : Nat) :
    assignCount [a] vid = if a.volunteer_id = some vid then 1 else 0 := by
  unfold assignCount
  by_cases h : a.volunteer_id = some vid <;> simp [List.countP_cons, h]

/-- A volunteer passing either candidate filter satisfies the weekly
limit check. -/
theorem mem_cands_weeklyLimit {roster : List Volunteer} {lastWeekVols : List (Option Nat)}
    {used : Nat → List RoleFunction} {service : ServiceType} {role : RoleFunction}
    {v : Volunteer} {cands : List Volunteer}
    (hcase : cands = roster.filter (strictFilter lastWeekVols used service role) ∨
      cands = roster.filter (relaxedFilter used service role))
    (hmem : v ∈ cands) :
    used v.id = [] ∨ role = RoleFunction.Coordinacion ∨
      RoleFunction.Coordinacion ∈ used v.id := by
  rcases hcase with hc | hc <;> rw [hc] at hmem <;>
    obtain ⟨_, h2⟩ := List.mem_filter.mp hmem
  · exact ((strictFilter_iff _ _ _ _ _).mp h2).2.2.2
  · exact ((relaxedFilter_iff _ _ _ _).mp h2).2

/-- Invariant tying the `usedThisWeek` map to the assignment list: a
volunteer with an empty role set has no assignments, a volunteer whose
role set lacks "Coordinación" has at most one, and every recorded role
is backed by an assignment. -/
def loadInv (st : SchedState) : Prop :=
  (∀ vid, st.used vid = [] → assignCount st.assignments vid = 0) ∧
  (∀ vid, RoleFunction.Coordinacion ∉ st.used vid → assignCount st.assignments vid ≤ 1) ∧
  (∀ vid r, r ∈ st.used vid →
    ∃ a ∈ st.assignments, a.volunteer_id = some vid ∧ a.function_name = r)

theorem processSlot_loadInv (roster : List Volunteer) (lastWeekVols : List (Option Nat))
    (week : String) (randomSeq : Nat → ℚ) (st : SchedState)
    (slot : ServiceType × RoleFunction) (st' : SchedState)
    (hP : loadInv st)
    (h : processSlot roster lastWeekVols week randomSeq st slot = some st') :
    loadInv st' := by
  obtain ⟨service, role⟩ := slot
  obtain ⟨inv1, inv2, inv3⟩ := hP
  rcases processSlot_spec roster lastWeekVols week randomSeq st service role st' h with
    ⟨selected, cands, hmem, hcase, hassign, hused⟩ | ⟨_, _, hassign, _, hused⟩
  · have hlimit : st.used selected.id = [] ∨ role = RoleFunction.Coordinacion ∨
        RoleFunction.Coordinacion ∈ st.used selected.id :=
      mem_cands_weeklyLimit
        (by rcases hcase with ⟨hc, _⟩ | ⟨_, hc, _⟩; exacts [Or.inl hc, Or.inr hc]) hmem
    refine ⟨?_, ?_, ?_⟩
    · intro vid hvid
      by_cases hv : vid = selected.id
      · subst hv
        simp only [hused, if_pos rfl] at hvid
        exact absurd hvid (setAdd_ne_nil _ _)
      · simp only [hused, if_neg hv] at hvid
        rw [hassign, assignCount_append, inv1 vid hvid, assignCount_single]
        simp [Ne.symm hv]
    · intro vid hvid
      by_cases hv : vid = selected.id
      · subst hv
        simp only [hused, if_pos rfl] at hvid
        have hrole : ¬ role = RoleFunction.Coordinacion := fun hr =>
          hvid (mem_setAdd.mpr (Or.inl hr.symm))
        have hold : RoleFunction.Coordinacion ∉ st.used selected.id := fun hr =>
          hvid (mem_setAdd.mpr (Or.inr hr))
        have hempty : st.used selected.id = [] := by
          rcases hlimit with he | hr | hr
          · exact he
          · exact absurd hr hrole
          · exact absurd hr hold
        rw [hassign, assignCount_append, inv1 selected.id hempty, assignCount_single]
        simp
      · simp only [hused, if_neg hv] at hvid
        rw [hassign, assignCount_append, assignCount_single]
        have := inv2 vid hvid
        rw [if_neg (by simp [Ne.symm hv])]
        omega
    · intro vid r hr
      by_cases hv : vid = selected.id
      · subst hv
        simp only [hused, if_pos rfl] at hr
        rcases mem_setAdd.mp hr with rfl | hrold
        · exact ⟨⟨week, service, r, some selected.id⟩,
            by rw [hassign]; simp, rfl, rfl⟩
        · obtain ⟨a, ha, h1, h2⟩ := inv3 selected.id r hrold
          exact ⟨a, by rw [hassign]; exact List.mem_append_left _ ha, h1, h2⟩
      · simp only [hused, if_neg hv] at hr
        obtain ⟨a, ha, h1, h2⟩ := inv3 vid r hr
        exact ⟨a, by rw [hassign]; exact List.mem_append_left _ ha, h1, h2⟩
  · refine ⟨?_, ?_, ?_⟩
    · intro vid hvid
      rw [hused] at hvid
      rw [hassign, assignCount_append, inv1 vid hvid, assignCount_single]
      simp
    · intro vid hvid
      rw [hused] at hvid
      rw [hassign, assignCount_append, assignCount_single]
      have := inv2 vid hvid
      rw [if_neg (by simp)]
      omega
    · intro vid r hr
      rw [hused] at hr
      obtain ⟨a, ha, h1, h2⟩ := inv3 vid r hr
      exact ⟨a, by rw [hassign]; exact List.mem_append_left _ ha, h1, h2⟩

/-- A volunteer never assigned "Coordinación" in a `generateSchedule`
output holds at most one assignment there. -/
theorem generateSchedule_coordFree (roster : List Volunteer)
    (prevWeek : List ScheduleAssignment) (week : String) (randomSeq : Nat → ℚ)
    (as : List ScheduleAssignment) (ws : List String)
    (h : generateSchedule roster prevWeek week randomSeq = some (as, ws)) :
    ∀ vid, (∀ a ∈ as, a.volunteer_id = some vid →
        a.function_name ≠ RoleFunction.Coordinacion) →
      assignCount as vid ≤ 1 := by
  obtain ⟨stf, hfold, has, _⟩ := generateSchedule_eq roster prevWeek week randomSeq as ws h
  have hinv : loadInv stf := by
    refine foldlM_invariant loadInv _ neededSlots ?_ initState stf hfold ?_
    · intro t a t' _ hP hstep
      exact processSlot_loadInv roster _ week randomSeq t a t' hP hstep
    · refine ⟨?_, ?_, ?_⟩ <;> intro vid <;> simp [initState, assignCount]
  obtain ⟨inv1, inv2, inv3⟩ := hinv
  intro vid hnone
  have hcoord : RoleFunction.Coordinacion ∉ stf.used vid := by
    intro hc
    obtain ⟨a, ha, h1, h2⟩ := inv3 vid RoleFunction.Coordinacion hc
    rw [has] at ha
    exact hnone a ha h1 h2
  rw [← has]
  exact inv2 vid hcoord

/-- Warnings only grow across a `processSlot` step. -/
theorem processSlot_warnings_mono (roster : List Volunteer) (lastWeekVols : List (Option Nat))
    (week : String) (randomSeq : Nat → ℚ) (st : SchedState)
    (slot : ServiceType × RoleFunction) (st' : SchedState)
    (h : processSlot roster lastWeekVols week randomSeq st slot = some st') :
    ∃ tail, st'.warnings = st.warnings ++ tail := by
  rcases processSlot_spec roster lastWeekVols week randomSeq st slot.1 slot.2 st' h with
    ⟨_, _, _, ⟨_, _, hw⟩ | ⟨_, _, _, hw⟩, _, _⟩ | ⟨_, _, _, hw, _⟩
  · exact ⟨[], by simp [hw]⟩
  · exact ⟨_, hw⟩
  · exact ⟨_, hw⟩

/-- Every non-null assignment either names a volunteer who was not in
the previous week's assignments, or carries the relaxed-pass warning
for its slot: the strict pass enforces the consecutive-week exclusion,
the relaxed pass does not but always warns. -/
theorem generateSchedule_recent_or_warned (roster : List Volunteer)
    (prevWeek : List ScheduleAssignment) (week : String) (randomSeq : Nat → ℚ)
    (as : List ScheduleAssignment) (ws : List String)
    (h : generateSchedule roster prevWeek week randomSeq = some (as, ws)) :
    ∀ a ∈ as, ∀ vid, a.volunteer_id = some vid →
      (some vid) ∉ prevWeek.map ScheduleAssignment.volunteer_id ∨
        relaxedWarning a.function_name a.service_type ∈ ws := by
  obtain ⟨stf, hfold, has, hws⟩ := generateSchedule_eq roster prevWeek week randomSeq as ws h
  have main : ∀ a ∈ stf.assignments, ∀ vid, a.volunteer_id = some vid →
      (some vid) ∉ prevWeek.map ScheduleAssignment.volunteer_id ∨
        relaxedWarning a.function_name a.service_type ∈ stf.warnings := by
    refine foldlM_invariant
      (fun st => ∀ a ∈ st.assignments, ∀ vid, a.volunteer_id = some vid →
        (some vid) ∉ prevWeek.map ScheduleAssignment.volunteer_id ∨
          relaxedWarning a.function_name a.service_type ∈ st.warnings)
      _ neededSlots ?_ initState stf hfold (by simp [initState])
    intro t slot t' _ hP hstep
    obtain ⟨tail, htail⟩ :=
      processSlot_warnings_mono roster _ week randomSeq t slot t' hstep
    obtain ⟨service, role⟩ := slot
    rcases processSlot_spec roster (prevWeek.map ScheduleAssignment.volunteer_id)
        week randomSeq t service role t' hstep with
      ⟨selected, cands, hmem, hcase, hassign, _⟩ | ⟨_, _, hassign, _, _⟩
    · rw [hassign]
      intro a ha vid hvid
      rcases List.mem_append.mp ha with hold | hnew
      · rcases hP a hold vid hvid with hl | hr
        · exact Or.inl hl
        · exact Or.inr (htail ▸ List.mem_append_left _ hr)
      · have ha' : a = ⟨week, service, role, some selected.id⟩ := by
          simpa using hnew
        subst ha'
        have hvid' : vid = selected.id := by
          simpa using hvid.symm
        subst hvid'
        rcases hcase with ⟨hc, _, _⟩ | ⟨_, hc, _, hw⟩
        · rw [hc] at hmem
          obtain ⟨_, h2⟩ := List.mem_filter.mp hmem
          exact Or.inl ((strictFilter_iff _ _ _ _ _).mp h2).2.2.1
        · refine Or.inr ?_
          rw [hw]
          simp
    · rw [hassign]
      intro a ha vid hvid
      rcases List.mem_append.mp ha with hold | hnew
      · rcases hP a hold vid hvid with hl | hr
        · exact Or.inl hl
        · exact Or.inr (htail ▸ List.mem_append_left _ hr)
      · have ha' : a = ⟨week, service, role, none⟩ := by
          simpa using hnew
        subst ha'
        simp at hvid
  rw [has, hws] at main
  exact main

/-- Every non-null assignment either names a roster volunteer who
prefers its role, or carries the relaxed-pass warning for its slot. -/
theorem generateSchedule_preferred_or_warned (roster : List Volunteer)
    (prevWeek : List ScheduleAssignment) (week : String) (randomSeq : Nat → ℚ)
    (as : List ScheduleAssignment) (ws : List String)
    (h : generateSchedule roster prevWeek week randomSeq = some (as, ws)) :
    ∀ a ∈ as, ∀ vid, a.volunteer_id = some vid →
      (∃ v, v ∈ roster ∧ v.id = vid ∧ a.function_name ∈ v.functions) ∨
        relaxedWarning a.function_name a.service_type ∈ ws := by
  obtain ⟨stf, hfold, has, hws⟩ := generateSchedule_eq roster prevWeek week randomSeq as ws h
  have main : ∀ a ∈ stf.assignments, ∀ vid, a.volunteer_id = some vid →
      (∃ v, v ∈ roster ∧ v.id = vid ∧ a.function_name ∈ v.functions) ∨
        relaxedWarning a.function_name a.service_type ∈ stf.warnings := by
    refine foldlM_invariant
      (fun st => ∀ a ∈ st.assignments, ∀ vid, a.volunteer_id = some vid →
        (∃ v, v ∈ roster ∧ v.id = vid ∧ a.function_name ∈ v.functions) ∨
          relaxedWarning a.function_name a.service_type ∈ st.warnings)
      _ neededSlots ?_ initState stf hfold (by simp [initState])
    intro t slot t' _ hP hstep
    obtain ⟨tail, htail⟩ :=
      processSlot_warnings_mono roster _ week randomSeq t slot t' hstep
    obtain ⟨service, role⟩ := slot
    rcases processSlot_spec roster (prevWeek.map ScheduleAssignment.volunteer_id)
        week randomSeq t service role t' hstep with
      ⟨selected, cands, hmem, hcase, hassign, _⟩ | ⟨_, _, hassign, _, _⟩
    · rw [hassign]
      intro a ha vid hvid
      rcases List.mem_append.mp ha with hold | hnew
      · rcases hP a hold vid hvid with hl | hr
        · exact Or.inl hl
        · exact Or.inr (htail ▸ List.mem_append_left _ hr)
      · have ha' : a = ⟨week, service, role, some selected.id⟩ := by
          simpa using hnew
        subst ha'
        have hvid' : vid = selected.id := by
          simpa using hvid.symm
        subst hvid'
        rcases hcase with ⟨hc, _, _⟩ | ⟨_, hc, _, hw⟩
        · rw [hc] at hmem
          obtain ⟨h1, h2⟩ := List.mem_filter.mp hmem
          exact Or.inl ⟨selected, h1, rfl, ((strictFilter_iff _ _ _ _ _).mp h2).2.1⟩
        · refine Or.inr ?_
          rw [hw]
          simp
    · rw [hassign]
      intro a ha vid hvid
      rcases List.mem_append.mp ha with hold | hnew
      · rcases hP a hold vid hvid with hl | hr
        · exact Or.inl hl
        · exact Or.inr (htail ▸ List.mem_append_left _ hr)
      · have ha' : a = ⟨week, service, role, none⟩ := by
          simpa using hnew
        subst ha'
        simp at hvid
  rw [has, hws] at main
  exact main

/-! ### Vacancy warnings correspond exactly to null assignments -/

theorem vacancyWarning_inj :
    ∀ r s r' s', vacancyWarning r s = vacancyWarning r' s' → r = r' ∧ s = s' := by
  decide

theorem vacancyWarning_ne_relaxedWarning :
    ∀ r s r' s', vacancyWarning r s ≠ relaxedWarning r' s' := by
  decide

theorem neededSlots_nodup : neededSlots.Nodup := by
  decide

/-- Invariant: a vacancy warning for (role, service) is present exactly
when some recorded assignment for that slot is null. -/
def vacancyInv (st : SchedState) : Prop :=
  ∀ r s, vacancyWarning r s ∈ st.warnings ↔
    ∃ a ∈ st.assignments, a.function_name = r ∧ a.service_type = s ∧
      a.volunteer_id = none

theorem processSlot_vacancyInv (roster : List Volunteer) (lastWeekVols : List (Option Nat))
    (week : String) (randomSeq : Nat → ℚ) (st : SchedState)
    (slot : ServiceType × RoleFunction) (st' : SchedState)
    (hP : vacancyInv st)
    (h : processSlot roster lastWeekVols week randomSeq st slot = some st') :
    vacancyInv st' := by
  obtain ⟨service, role⟩ := slot
  rcases processSlot_spec roster lastWeekVols week randomSeq st service role st' h with
    ⟨selected, cands, hmem, hcase, hassign, _⟩ | ⟨_, _, hassign, hwarn, _⟩
  · have hwarn : st'.warnings = st.warnings ∨
        st'.warnings = st.warnings ++ [relaxedWarning role service] := by
      rcases hcase with ⟨_, _, hw⟩ | ⟨_, _, _, hw⟩
      · exact Or.inl hw
      · exact Or.inr hw
    intro r s
    constructor
    · intro hin
      have hold : vacancyWarning r s ∈ st.warnings := by
        rcases hwarn with hw | hw
        · rw [hw] at hin
          exact hin
        · rw [hw] at hin
          rcases List.mem_append.mp hin with h1 | h1
          · exact h1
          · exact absurd (List.mem_singleton.mp h1)
              (vacancyWarning_ne_relaxedWarning r s role service)
      obtain ⟨a, ha, h1, h2, h3⟩ := (hP r s).mp hold
      exact ⟨a, by rw [hassign]; exact List.mem_append_left _ ha, h1, h2, h3⟩
    · intro ⟨a, ha, h1, h2, h3⟩
      rw [hassign] at ha
      rcases List.mem_append.mp ha with hold | hnew
      · have := (hP r s).mpr ⟨a, hold, h1, h2, h3⟩
        rcases hwarn with hw | hw
        · rw [hw]
          exact this
        · rw [hw]
          exact List.mem_append_left _ this
      · have ha' : a = ⟨week, service, role, some selected.id⟩ := by
          simpa using hnew
        subst ha'
        simp at h3
  · intro r s
    constructor
    · intro hin
      rw [hwarn] at hin
      rcases List.mem_append.mp hin with hold | hnew
      · obtain ⟨a, ha, h1, h2, h3⟩ := (hP r s).mp hold
        exact ⟨a, by rw [hassign]; exact List.mem_append_left _ ha, h1, h2, h3⟩
      · obtain ⟨hr, hs⟩ := vacancyWarning_inj r s role service (List.mem_singleton.mp hnew)
        subst hr
        subst hs
        exact ⟨⟨week, s, r, none⟩, by rw [hassign]; simp, rfl, rfl, rfl⟩
    · intro ⟨a, ha, h1, h2, h3⟩
      rw [hassign] at ha
      rw [hwarn]
      rcases List.mem_append.mp ha with hold | hnew
      · exact List.mem_append_left _ ((hP r s).mpr ⟨a, hold, h1, h2, h3⟩)
      · have ha' : a = ⟨week, service, role, none⟩ := by
          simpa using hnew
        subst ha'
        obtain rfl : role = r := h1
        obtain rfl : service = s := h2
        simp

/-- In a `generateSchedule` output, an assignment is null exactly when
the vacancy warning for its slot is in the warning list. -/
theorem generateSchedule_null_iff_vacancy (roster : List Volunteer)
    (prevWeek : List ScheduleAssignment) (week : String) (randomSeq : Nat → ℚ)
    (as : List ScheduleAssignment) (ws : List String)
    (h : generateSchedule roster prevWeek week randomSeq = some (as, ws)) :
    ∀ a ∈ as, (a.volunteer_id = none ↔
      vacancyWarning a.function_name a.service_type ∈ ws) := by
  obtain ⟨stf, hfold, has, hws⟩ := generateSchedule_eq roster prevWeek week randomSeq as ws h
  have hinv : vacancyInv stf := by
    refine foldlM_invariant vacancyInv _ neededSlots ?_ initState stf hfold ?_
    · intro t slot t' _ hP hstep
      exact processSlot_vacancyInv roster _ week randomSeq t slot t' hP hstep
    · intro r s
      simp [initState]
  have hshape := generateSchedule_shape roster prevWeek week randomSeq as ws h
  have hnodup : (as.map (fun a => (a.service_type, a.function_name))).Nodup := by
    rw [hshape]
    exact neededSlots_nodup
  unfold vacancyInv at hinv
  rw [has, hws] at hinv
  intro a ha
  constructor
  · intro hnull
    exact (hinv a.function_name a.service_type).mpr ⟨a, ha, rfl, rfl, hnull⟩
  · intro hwmem
    obtain ⟨a', ha', h1, h2, h3⟩ :=
      (hinv a.function_name a.service_type).mp hwmem
    have : a' = a := by
      refine List.inj_on_of_nodup_map hnodup ha' ha ?_
      rw [h1, h2]
    rw [← this]
    exact h3

/-! ### Totality under a well-behaved random source, and per-step
warning characterisations -/

theorem assignFromCandidates_total (week : String) (service : ServiceType)
    (role : RoleFunction) (randomSeq : Nat → ℚ) (st : SchedState)
    (cands : List Volunteer) (ws : List String) (hv : validRnd randomSeq) :
    ∃ st', assignFromCandidates week service role randomSeq st cands ws = some st' := by
  unfold assignFromCandidates
  by_cases hc : cands.length > 0
  · rw [if_pos hc]
    obtain ⟨h0, h1⟩ := hv st.rndCount
    obtain ⟨hge, hlt⟩ := jsFloorMul_bounds (randomSeq st.rndCount) cands.length h0 h1 hc
    obtain ⟨x, hx⟩ := jsGet_isSome hge (by exact_mod_cast hlt)
    rw [hx]
    exact ⟨_, rfl⟩
  · rw [if_neg hc]
    exact ⟨_, rfl⟩

theorem processSlot_total (roster : List Volunteer) (lastWeekVols : List (Option Nat))
    (week : String) (randomSeq : Nat → ℚ) (hv : validRnd randomSeq)
    (st : SchedState) (slot : ServiceType × RoleFunction) :
    ∃ st', processSlot roster lastWeekVols week randomSeq st slot = some st' := by
  obtain ⟨service, role⟩ := slot
  unfold processSlot
  simp only
  by_cases hstrict :
      (roster.filter (strictFilter lastWeekVols st.used service role)).length = 0
  · rw [if_pos hstrict]
    exact assignFromCandidates_total week service role randomSeq st _ _ hv
  · rw [if_neg hstrict]
    exact assignFromCandidates_total week service role randomSeq st _ _ hv

theorem generateSchedule_total (roster : List Volunteer)
    (prevWeek : List ScheduleAssignment) (week : String) (randomSeq : Nat → ℚ)
    (hv : validRnd randomSeq) :
    ∃ as ws, generateSchedule roster prevWeek week randomSeq = some (as, ws) := by
  obtain ⟨stf, hstf⟩ := foldlM_total
    (processSlot roster (prevWeek.map ScheduleAssignment.volunteer_id) week randomSeq)
    neededSlots
    (fun t a _ => processSlot_total roster _ week randomSeq hv t a) initState
  refine ⟨stf.assignments, stf.warnings, ?_⟩
  unfold generateSchedule
  simp only
  rw [hstf]
  rfl

/-- When both candidate passes are empty, the slot loop body records a
null assignment and a vacancy warning — it never fails. -/
theorem processSlot_vacant (roster : List Volunteer) (lastWeekVols : List (Option Nat))
    (week : String) (randomSeq : Nat → ℚ) (st : SchedState)
    (service : ServiceType) (role : RoleFunction)
    (h1 : roster.filter (strictFilter lastWeekVols st.used service role) = [])
    (h2 : roster.filter (relaxedFilter st.used service role) = []) :
    processSlot roster lastWeekVols week randomSeq st (service, role) =
      some { st with
        assignments := st.assignments ++ [⟨week, service, role, none⟩]
        warnings := st.warnings ++ [vacancyWarning role service] } := by
  unfold processSlot assignFromCandidates
  simp [h1, h2]

/-- The relaxed-pass warning is appended by a slot step exactly when
the strict pass was empty and the relaxed pass was not. -/
theorem processSlot_relaxedWarning_iff (roster : List Volunteer)
    (lastWeekVols : List (Option Nat)) (week : String) (randomSeq : Nat → ℚ)
    (st : SchedState) (service : ServiceType) (role : RoleFunction) (st' : SchedState)
    (h : processSlot roster lastWeekVols week randomSeq st (service, role) = some st') :
    (st'.warnings = st.warnings ++ [relaxedWarning role service] ↔
      (roster.filter (strictFilter lastWeekVols st.used service role) = [] ∧
        roster.filter (relaxedFilter st.used service role) ≠ [])) := by
  rcases processSlot_spec roster lastWeekVols week randomSeq st service role st' h with
    ⟨selected, cands, hmem, ⟨hc, hne, hw⟩ | ⟨hs, hc, hne, hw⟩, _, _⟩ |
      ⟨hs, hr, _, hw, _⟩
  · constructor
    · intro hw'
      rw [hw] at hw'
      exact absurd hw'.symm (by simp)
    · intro ⟨hs, _⟩
      rw [hc, hs] at hne
      exact absurd rfl hne
  · constructor
    · intro _
      exact ⟨hs, hc ▸ hne⟩
    · intro _
      exact hw
  · constructor
    · intro hw'
      rw [hw] at hw'
      have := List.append_inj_right hw' (by rfl)
      exact absurd (List.head_eq_of_cons_eq this)
        (vacancyWarning_ne_relaxedWarning role service role service)
    · intro ⟨_, hne⟩
      exact absurd hr hne

/-! ### Concrete scenario inputs -/

/-- Scenario A/B volunteer: prefers Transmisión, available on Domingo. -/
def volA : Volunteer := ⟨1, "Voluntario 1", [.Transmision], [.Domingo], [], 0⟩

def rosterA : List Volunteer := [volA]

/-- Scenario B previous week: volunteer 1 served Domingo/Transmisión. -/
def prevB : List ScheduleAssignment :=
  [⟨"2025-01-06", .Domingo, .Transmision, some 1⟩]

def asA : List ScheduleAssignment :=
  ((generateSchedule rosterA [] "2025-01-06" rnd0).map Prod.fst).getD []

def wsA : List String :=
  ((generateSchedule rosterA [] "2025-01-06" rnd0).map Prod.snd).getD []

def asB : List ScheduleAssignment :=
  ((generateSchedule rosterA prevB "2025-01-13" rnd0).map Prod.fst).getD []

def wsB : List String :=
  ((generateSchedule rosterA prevB "2025-01-13" rnd0).map Prod.snd).getD []

/-- A volunteer preferring Consola, Transmisión and Coordinación,
available on Miércoles and Sábado Mañana. -/
def volC : Volunteer :=
  ⟨1, "Voluntario 1", [.Consola, .Transmision, .Coordinacion],
    [.Miercoles, .SabadoManana], [], 0⟩

def asC : List ScheduleAssignment :=
  ((generateSchedule [volC] [] "2025-01-06" rnd0).map Prod.fst).getD []

def wsC : List String :=
  ((generateSchedule [volC] [] "2025-01-06" rnd0).map Prod.snd).getD []

/-- A volunteer available on Domingo but preferring only Coordinación. -/
def volD : Volunteer := ⟨1, "Voluntario 1", [.Coordinacion], [.Domingo], [], 0⟩

def asD : List ScheduleAssignment :=
  ((generateSchedule [volD] [] "2025-01-06" rnd0).map Prod.fst).getD []

def wsD : List String :=
  ((generateSchedule [volD] [] "2025-01-06" rnd0).map Prod.snd).getD []

/-- `some vid` occurs among the previous week's `volunteer_id`s exactly
when `vid` is a previously serving volunteer id. -/
theorem mem_map_volunteer_id_iff (prevWeek : List ScheduleAssignment) (vid : Nat) :
    (some vid) ∈ prevWeek.map ScheduleAssignment.volunteer_id ↔
      vid ∈ prevWeek.filterMap ScheduleAssignment.volunteer_id := by
  simp [List.mem_map, List.mem_filterMap, eq_comm]

/-! ### Claim C1 -/

/-- C1 counterexample: the claim that no volunteer id occurring in
`previousWeekAssignments` occurs in any non-null assignment of the
output — with the relaxed pass also excluding recently served
volunteers — is false: on the Scenario-B input (volunteer 1 available
only for Domingo/Transmisión and serving the previous week), the
relaxed pass assigns volunteer 1 again. -/
theorem C1_counterexample :
    ¬ (∀ as ws, generateSchedule rosterA prevB "2025-01-13" rnd0 = some (as, ws) →
      ∀ a ∈ as, ∀ vid, a.volunteer_id = some vid →
        vid ∉ prevB.filterMap ScheduleAssignment.volunteer_id) := by
  intro h
  have := h asB wsB (by rfl)
    ⟨"2025-01-13", .Domingo, .Transmision, some 1⟩ (by decide) 1 rfl
  exact this (by decide)

/-- C1 (amended): the strict pass enforces the anti-consecutive-week
exclusion, but the relaxed pass drops it together with the preference
constraint; hence every non-null assignment either names a volunteer
not occurring in `previousWeekAssignments`, or carries the
relaxed-pass warning for its slot. -/
theorem C1_theorem (roster : List Volunteer) (prevWeek : List ScheduleAssignment)
    (week : String) (randomSeq : Nat → ℚ) (as : List ScheduleAssignment)
    (ws : List String)
    (h : generateSchedule roster prevWeek week randomSeq = some (as, ws)) :
    ∀ a ∈ as, ∀ vid, a.volunteer_id = some vid →
      vid ∉ prevWeek.filterMap ScheduleAssignment.volunteer_id ∨
        relaxedWarning a.function_name a.service_type ∈ ws := by
  intro a ha vid hvid
  rcases generateSchedule_recent_or_warned roster prevWeek week randomSeq as ws h
      a ha vid hvid with hl | hr
  · exact Or.inl fun hmem => hl ((mem_map_volunteer_id_iff prevWeek vid).mpr hmem)
  · exact Or.inr hr

/-- C1 witness: the amended statement applied to the Scenario-B run. -/
theorem C1_witness :
    (1 : Nat) ∉ prevB.filterMap ScheduleAssignment.volunteer_id ∨
      relaxedWarning RoleFunction.Transmision ServiceType.Domingo ∈ wsB :=
  C1_theorem rosterA prevB "2025-01-13" rnd0 asB wsB (by rfl)
    ⟨"2025-01-13", .Domingo, .Transmision, some 1⟩ (by decide) 1 rfl

/-! ### Claim C2 -/

/-- C2 counterexample: the claim that no volunteer id appears with two
different non-"Coordinación" roles is false: a volunteer preferring
Consola, Transmisión and Coordinación, available on Miércoles and
Sábado Mañana, is assigned Consola (Miércoles), Coordinación
(Miércoles), and then both Consola and Transmisión on Sábado Mañana —
once Coordinación is among their roles the weekly-limit check admits
any further role. -/
theorem C2_counterexample :
    ¬ (∀ as ws, generateSchedule [volC] [] "2025-01-06" rnd0 = some (as, ws) →
      ∀ a ∈ as, ∀ b ∈ as, ∀ vid, a.volunteer_id = some vid →
        b.volunteer_id = some vid →
        a.function_name ≠ RoleFunction.Coordinacion →
        b.function_name ≠ RoleFunction.Coordinacion →
        a.function_name = b.function_name) := by
  intro h
  have := h asC wsC (by rfl)
    ⟨"2025-01-06", .SabadoManana, .Consola, some 1⟩ (by decide)
    ⟨"2025-01-06", .SabadoManana, .Transmision, some 1⟩ (by decide)
    1 rfl rfl (by decide) (by decide)
  exact absurd this (by decide)

/-- C2 (amended): a volunteer holding no "Coordinación" assignment in
the output holds at most one assignment in total (so never two
different non-"Coordinación" roles); but once "Coordinación" is among
a volunteer's roles the code admits any further role, including a
third non-"Coordinación" one. -/
theorem C2_theorem (roster : List Volunteer) (prevWeek : List ScheduleAssignment)
    (week : String) (randomSeq : Nat → ℚ) (as : List ScheduleAssignment)
    (ws : List String)
    (h : generateSchedule roster prevWeek week randomSeq = some (as, ws)) :
    ∀ vid, (∀ a ∈ as, a.volunteer_id = some vid →
        a.function_name ≠ RoleFunction.Coordinacion) →
      assignCount as vid ≤ 1 :=
  generateSchedule_coordFree roster prevWeek week randomSeq as ws h

/-- C2 witness: in the Scenario-A run volunteer 1 never holds
Coordinación, and indeed holds exactly one assignment. -/
theorem C2_witness : assignCount asA 1 ≤ 1 :=
  C2_theorem rosterA [] "2025-01-06" rnd0 asA wsA (by rfl) 1 (by decide)

/-! ### Claim C3 -/

/-- C3 counterexample: on the Scenario-B input the Domingo/Transmisión
assignment is not null (and no vacancy warning for it is emitted): the
relaxed pass, which does not re-check recency, assigns volunteer 1. -/
theorem C3_counterexample :
    ¬ (∀ as ws, generateSchedule rosterA prevB "2025-01-13" rnd0 = some (as, ws) →
      ((∀ a ∈ as, a.service_type = ServiceType.Domingo →
          a.function_name = RoleFunction.Transmision → a.volunteer_id = none) ∧
        vacancyWarning RoleFunction.Transmision ServiceType.Domingo ∈ ws)) := by
  intro h
  obtain ⟨h1, _⟩ := h asB wsB (by rfl)
  have := h1 ⟨"2025-01-13", .Domingo, .Transmision, some 1⟩ (by decide) rfl rfl
  simp at this

/-- C3 (amended): on the Scenario-B input the Domingo/Transmisión
assignment carries volunteer 1 (assigned by the relaxed pass), the
relaxed-pass warning for that slot is present, and no vacancy warning
for it is emitted. -/
theorem C3_theorem :
    generateSchedule rosterA prevB "2025-01-13" rnd0 = some (asB, wsB) ∧
      (⟨"2025-01-13", .Domingo, .Transmision, some 1⟩ : ScheduleAssignment) ∈ asB ∧
      relaxedWarning RoleFunction.Transmision ServiceType.Domingo ∈ wsB ∧
      vacancyWarning RoleFunction.Transmision ServiceType.Domingo ∉ wsB :=
  ⟨by rfl, by decide, by decide, by decide⟩

/-! ### Claim C4 -/

/-- C4: the output contains exactly one assignment per needed
(service, role) slot and none for a non-needed slot, in the fixed
order: services in `ALL_SERVICES` order, roles in `ALL_FUNCTIONS`
order, except that for "Domingo" only the single "Transmisión" slot is
emitted; `neededSlots` is that enumeration and it is duplicate-free. -/
theorem C4_theorem (roster : List Volunteer) (prevWeek : List ScheduleAssignment)
    (week : String) (randomSeq : Nat → ℚ) (as : List ScheduleAssignment)
    (ws : List String)
    (h : generateSchedule roster prevWeek week randomSeq = some (as, ws)) :
    as.map (fun a => (a.service_type, a.function_name)) = neededSlots ∧
      neededSlots.Nodup :=
  ⟨generateSchedule_shape roster prevWeek week randomSeq as ws h, neededSlots_nodup⟩

/-- C4 witness: the slot structure of the Scenario-A run. -/
theorem C4_witness :
    asA.map (fun a => (a.service_type, a.function_name)) = neededSlots ∧
      neededSlots.Nodup :=
  C4_theorem rosterA [] "2025-01-06" rnd0 asA wsA (by rfl)

/-! ### Claim C5 -/

/-- C5: the strict-pass candidate list is exactly the set of roster
volunteers with (a) the service in their availability, (b) the role in
their preferred functions, (c) an id not among the previous week's
volunteer ids, and (d) no role yet this week, or the role is
"Coordinación", or their roles so far include "Coordinación". -/
theorem C5_theorem (roster : List Volunteer) (prevWeek : List ScheduleAssignment)
    (used : Nat → List RoleFunction) (service : ServiceType) (role : RoleFunction)
    (v : Volunteer) :
    v ∈ roster.filter
        (strictFilter (prevWeek.map ScheduleAssignment.volunteer_id) used service role) ↔
      (v ∈ roster ∧ service ∈ v.availability ∧ role ∈ v.functions ∧
        v.id ∉ prevWeek.filterMap ScheduleAssignment.volunteer_id ∧
        (used v.id = [] ∨ role = RoleFunction.Coordinacion ∨
          RoleFunction.Coordinacion ∈ used v.id)) := by
  rw [List.mem_filter, strictFilter_iff, mem_map_volunteer_id_iff]

/-! ### Claim C6 -/

/-- C6: every non-null assignment in the output names a roster
volunteer whose availability contains the assignment's service —
whether the strict or the relaxed pass made the assignment, since both
filters check availability first. -/
theorem C6_theorem (roster : List Volunteer) (prevWeek : List ScheduleAssignment)
    (week : String) (randomSeq : Nat → ℚ) (as : List ScheduleAssignment)
    (ws : List String)
    (h : generateSchedule roster prevWeek week randomSeq = some (as, ws)) :
    ∀ a ∈ as, ∀ vid, a.volunteer_id = some vid →
      ∃ v, v ∈ roster ∧ v.id = vid ∧ a.service_type ∈ v.availability :=
  generateSchedule_availability roster prevWeek week randomSeq as ws h

/-- C6 witness: the Scenario-A assignment of volunteer 1 to
Domingo/Transmisión names an available volunteer. -/
theorem C6_witness :
    ∃ v, v ∈ rosterA ∧ v.id = 1 ∧ ServiceType.Domingo ∈ v.availability :=
  C6_theorem rosterA [] "2025-01-06" rnd0 asA wsA (by rfl)
    ⟨"2025-01-06", .Domingo, .Transmision, some 1⟩ (by decide) 1 rfl

/-! ### Claim C7 -/

/-- C7: the scheduler never fails on an impossible-to-fill slot — when
both passes are empty the slot step always succeeds, recording a null
assignment plus the vacancy warning — and in every output an
assignment is null exactly when the vacancy warning for its slot is in
the warning list. -/
theorem C7_theorem :
    (∀ (roster : List Volunteer) (lastWeekVols : List (Option Nat)) (week : String)
        (randomSeq : Nat → ℚ) (st : SchedState) (service : ServiceType)
        (role : RoleFunction),
      roster.filter (strictFilter lastWeekVols st.used service role) = [] →
      roster.filter (relaxedFilter st.used service role) = [] →
      processSlot roster lastWeekVols week randomSeq st (service, role) =
        some { st with
          assignments := st.assignments ++ [⟨week, service, role, none⟩]
          warnings := st.warnings ++ [vacancyWarning role service] }) ∧
    (∀ (roster : List Volunteer) (prevWeek : List ScheduleAssignment) (week : String)
        (randomSeq : Nat → ℚ) (as : List ScheduleAssignment) (ws : List String),
      generateSchedule roster prevWeek week randomSeq = some (as, ws) →
      ∀ a ∈ as, (a.volunteer_id = none ↔
        vacancyWarning a.function_name a.service_type ∈ ws)) :=
  ⟨fun roster lastWeekVols week randomSeq st service role h1 h2 =>
      processSlot_vacant roster lastWeekVols week randomSeq st service role h1 h2,
    fun roster prevWeek week randomSeq as ws h =>
      generateSchedule_null_iff_vacancy roster prevWeek week randomSeq as ws h⟩

/-- C7 witness: the empty-roster slot step records a vacancy, and in
the Scenario-A run the filled Domingo slot has no vacancy warning
while the vacant Miércoles/Consola slot has one. -/
theorem C7_witness :
    (processSlot [] [] "2025-01-06" rnd0 initState
        (ServiceType.Domingo, RoleFunction.Transmision) =
      some { initState with
        assignments := initState.assignments ++
          [⟨"2025-01-06", .Domingo, .Transmision, none⟩]
        warnings := initState.warnings ++
          [vacancyWarning RoleFunction.Transmision ServiceType.Domingo] }) ∧
    ((ScheduleAssignment.volunteer_id ⟨"2025-01-06", .Domingo, .Transmision, some 1⟩ =
        none) ↔
      vacancyWarning RoleFunction.Transmision ServiceType.Domingo ∈ wsA) :=
  ⟨C7_theorem.1 [] [] "2025-01-06" rnd0 initState ServiceType.Domingo
      RoleFunction.Transmision (by rfl) (by rfl),
    C7_theorem.2 rosterA [] "2025-01-06" rnd0 asA wsA (by rfl)
      ⟨"2025-01-06", .Domingo, .Transmision, some 1⟩ (by decide)⟩

/-! ### Claim C8 -/

/-- The final state of the empty-roster slot step, used as a concrete
instance below. -/
def stVac : SchedState :=
  ⟨[⟨"2025-01-06", .Domingo, .Transmision, none⟩],
    [vacancyWarning .Transmision .Domingo], fun _ => [], 0⟩

/-- C8: if a non-null assignment's role is preferred by no roster
volunteer with the assigned id, the relaxed-pass warning for that role
and service is in the warning list; and a slot step appends that
warning exactly when the strict pass is empty and the relaxed pass is
not. -/
theorem C8_theorem :
    (∀ (roster : List Volunteer) (prevWeek : List ScheduleAssignment) (week : String)
        (randomSeq : Nat → ℚ) (as : List ScheduleAssignment) (ws : List String),
      generateSchedule roster prevWeek week randomSeq = some (as, ws) →
      ∀ a ∈ as, ∀ vid, a.volunteer_id = some vid →
        (∀ v, v ∈ roster → v.id = vid → a.function_name ∉ v.functions) →
        relaxedWarning a.function_name a.service_type ∈ ws) ∧
    (∀ (roster : List Volunteer) (lastWeekVols : List (Option Nat)) (week : String)
        (randomSeq : Nat → ℚ) (st : SchedState) (service : ServiceType)
        (role : RoleFunction) (st' : SchedState),
      processSlot roster lastWeekVols week randomSeq st (service, role) = some st' →
      (st'.warnings = st.warnings ++ [relaxedWarning role service] ↔
        (roster.filter (strictFilter lastWeekVols st.used service role) = [] ∧
          roster.filter (relaxedFilter st.used service role) ≠ []))) := by
  constructor
  · intro roster prevWeek week randomSeq as ws h a ha vid hvid hnp
    rcases generateSchedule_preferred_or_warned roster prevWeek week randomSeq as ws h
        a ha vid hvid with ⟨v, hv1, hv2, hv3⟩ | hr
    · exact absurd hv3 (hnp v hv1 hv2)
    · exact hr
  · intro roster lastWeekVols week randomSeq st service role st' h
    exact processSlot_relaxedWarning_iff roster lastWeekVols week randomSeq st
      service role st' h

/-- C8 witness: volunteer 1 (preferring only Coordinación) is assigned
Domingo/Transmisión by the relaxed pass and the warning is present;
and the empty-roster vacancy step does not append a relaxed warning. -/
theorem C8_witness :
    (relaxedWarning RoleFunction.Transmision ServiceType.Domingo ∈ wsD) ∧
    (stVac.warnings = initState.warnings ++
        [relaxedWarning RoleFunction.Transmision ServiceType.Domingo] ↔
      (([] : List Volunteer).filter
          (strictFilter [] initState.used ServiceType.Domingo RoleFunction.Transmision)
            = [] ∧
        ([] : List Volunteer).filter
          (relaxedFilter initState.used ServiceType.Domingo RoleFunction.Transmision)
            ≠ [])) :=
  ⟨C8_theorem.1 [volD] [] "2025-01-06" rnd0 asD wsD (by rfl)
      ⟨"2025-01-06", .Domingo, .Transmision, some 1⟩ (by decide) 1 rfl (by decide),
    C8_theorem.2 [] [] "2025-01-06" rnd0 initState ServiceType.Domingo
      RoleFunction.Transmision stVac (by rfl)⟩

/-! ### Claim C9 -/

/-- C9 counterexample: on the Scenario-A input the output is not a
single assignment with no warnings: the loop emits one assignment per
needed slot of all four services, so 15 further null assignments and
15 vacancy warnings accompany the (Domingo, Transmisión, volunteer 1)
assignment. -/
theorem C9_counterexample :
    ¬ (∀ as ws, generateSchedule rosterA [] "2025-01-06" rnd0 = some (as, ws) →
      (as = [⟨"2025-01-06", .Domingo, .Transmision, some 1⟩] ∧ ws = [])) := by
  intro h
  obtain ⟨h1, _⟩ := h asA wsA (by rfl)
  exact absurd h1 (by decide)

/-- C9 (amended): on the Scenario-A input the only non-null assignment
is (Domingo, Transmisión, volunteer 1); the output covers all 16
needed slots and carries 15 warnings, all of them vacancy warnings. -/
theorem C9_theorem :
    generateSchedule rosterA [] "2025-01-06" rnd0 = some (asA, wsA) ∧
      asA.filter (fun a => a.volunteer_id.isSome) =
        [⟨"2025-01-06", .Domingo, .Transmision, some 1⟩] ∧
      asA.map (fun a => (a.service_type, a.function_name)) = neededSlots ∧
      wsA.length = 15 ∧
      (∀ w ∈ wsA, ∃ r s, w = vacancyWarning r s) :=
  ⟨by rfl, by decide, by decide, by decide, by decide⟩

/-! ### Claim C10 -/

/-- C10: with every `Math.random` result in `[0, 1)`, the selection
index `floor(random * length)` is within bounds for a non-empty
candidate list, the whole run succeeds, and every non-null
`volunteer_id` in the output is the id of some roster volunteer. -/
theorem C10_theorem :
    (∀ (q : ℚ) (n : Nat), 0 ≤ q → q < 1 → 0 < n →
      (jsFloorMul q n = ⌊q * (n : ℚ)⌋ ∧ 0 ≤ jsFloorMul q n ∧ jsFloorMul q n < n)) ∧
    (∀ (roster : List Volunteer) (prevWeek : List ScheduleAssignment) (week : String)
        (randomSeq : Nat → ℚ), validRnd randomSeq →
      ∃ as ws, generateSchedule roster prevWeek week randomSeq = some (as, ws) ∧
        ∀ a ∈ as, ∀ vid, a.volunteer_id = some vid →
          vid ∈ roster.map Volunteer.id) := by
  constructor
  · intro q n h0 h1 hn
    obtain ⟨hg, hl⟩ := jsFloorMul_bounds q n h0 h1 hn
    exact ⟨jsFloorMul_eq_floor q n, hg, hl⟩
  · intro roster prevWeek week randomSeq hv
    obtain ⟨as, ws, h⟩ := generateSchedule_total roster prevWeek week randomSeq hv
    refine ⟨as, ws, h, ?_⟩
    intro a ha vid hvid
    obtain ⟨v, hv1, hv2, _⟩ :=
      generateSchedule_availability roster prevWeek week randomSeq as ws h a ha vid hvid
    exact List.mem_map.mpr ⟨v, hv1, hv2⟩

/-- C10 witness: the bound at random value 0 with three candidates,
and the Scenario-A run under the constant-zero random sequence. -/
theorem C10_witness :
    (jsFloorMul 0 3 = ⌊(0 : ℚ) * ((3 : Nat) : ℚ)⌋ ∧ 0 ≤ jsFloorMul 0 3 ∧
      jsFloorMul 0 3 < 3) ∧
    (∃ as ws, generateSchedule rosterA [] "2025-01-06" rnd0 = some (as, ws) ∧
      ∀ a ∈ as, ∀ vid, a.volunteer_id = some vid →
        vid ∈ rosterA.map Volunteer.id) :=
  ⟨C10_theorem.1 0 3 (by norm_num) (by norm_num) (by norm_num),
    C10_theorem.2 rosterA [] "2025-01-06" rnd0
      (fun k => ⟨by norm_num [rnd0], by norm_num [rnd0]⟩)⟩
